import Mathlib

/-!
Verification of the streaming transcription gateway (run.py) and its client
(asr.py). The Python code is shallowly embedded: the global model cache
becomes explicit state passing, the async generator becomes a function
returning the list of emitted events together with an optional uncaught
exception message, and the fallible external engine (WhisperModel) becomes
an explicit outcome datatype.
-/

/-- A loaded WhisperModel instance, identified by its configuration and a
construction counter so that distinct constructions are distinguishable. -/
structure WhisperModelInst where
  model_size : String
  device : String
  compute_type : String
  instance_id : Nat
deriving DecidableEq, Repr

/-- The process-wide state around the global dictionary _model_cache: the
cached key-to-instance association plus a counter of how many times the
WhisperModel constructor has been invoked (its observable side effect). -/
structure ModelCacheState where
  cache : List (String × WhisperModelInst)
  construction_count : Nat
deriving DecidableEq, Repr

/-- The cache key built in get_model: f-string joining of the three
configuration fields with underscore separators. -/
def cache_key (model_size device compute_type : String) : String :=
  model_size ++ "_" ++ device ++ "_" ++ compute_type

/-- Embedding of get_model from run.py. The WhisperModel constructor is a
parameter construct, which may raise (Except.error): on a cache miss it is
invoked once, the construction counter is bumped, and on success the new
instance is stored under the key; on a cache hit nothing is constructed and
the state is unchanged. An exception from construct propagates and stores
nothing in the cache, mirroring the Python assignment semantics where the
right-hand side raises before the dictionary entry is written. -/
def get_model
    (construct : String → String → String → Nat → Except String WhisperModelInst)
    (st : ModelCacheState) (model_size device compute_type : String) :
    Except String WhisperModelInst × ModelCacheState :=
  match st.cache.lookup (cache_key model_size device compute_type) with
  | some m => (Except.ok m, st)
  | none =>
      match construct model_size device compute_type st.construction_count with
      | Except.error e =>
          (Except.error e, { st with construction_count := st.construction_count + 1 })
      | Except.ok m =>
          (Except.ok m,
           ⟨(cache_key model_size device compute_type, m) :: st.cache,
            st.construction_count + 1⟩)

/-- A constructor that always succeeds, returning an instance stamped with
the current construction counter. -/
def mk_whisper_model (model_size device compute_type : String) (n : Nat) :
    Except String WhisperModelInst :=
  Except.ok ⟨model_size, device, compute_type, n⟩

/-- A cache hit returns the stored instance and leaves the state unchanged. -/
theorem get_model_hit
    (construct : String → String → String → Nat → Except String WhisperModelInst)
    (st : ModelCacheState) (model_size device compute_type : String)
    (m : WhisperModelInst)
    (h : st.cache.lookup (cache_key model_size device compute_type) = some m) :
    get_model construct st model_size device compute_type = (Except.ok m, st) := by
  unfold get_model
  rw [h]

/-- A cache miss with a succeeding constructor stores the fresh instance
under the key and bumps the construction counter. -/
theorem get_model_miss_ok
    (construct : String → String → String → Nat → Except String WhisperModelInst)
    (st : ModelCacheState) (model_size device compute_type : String)
    (m : WhisperModelInst)
    (hmiss : st.cache.lookup (cache_key model_size device compute_type) = none)
    (hok : construct model_size device compute_type st.construction_count = Except.ok m) :
    get_model construct st model_size device compute_type =
      (Except.ok m,
       ⟨(cache_key model_size device compute_type, m) :: st.cache,
        st.construction_count + 1⟩) := by
  unfold get_model
  rw [hmiss, hok]

/-- After any successful call, the returned state's cache holds the returned
instance under the call's key. -/
theorem get_model_ok_lookup
    (construct : String → String → String → Nat → Except String WhisperModelInst)
    (st : ModelCacheState) (model_size device compute_type : String)
    (m : WhisperModelInst) (st' : ModelCacheState)
    (h : get_model construct st model_size device compute_type = (Except.ok m, st')) :
    st'.cache.lookup (cache_key model_size device compute_type) = some m := by
  unfold get_model at h
  cases hl : st.cache.lookup (cache_key model_size device compute_type) with
  | some m0 =>
      rw [hl] at h
      have hp : ((Except.ok m0 : Except String WhisperModelInst), st) = (Except.ok m, st') := h
      have h2 : st = st' := congrArg Prod.snd hp
      have h1 : m0 = m := Except.ok.inj (congrArg Prod.fst hp)
      subst h2
      subst h1
      exact hl
  | none =>
      rw [hl] at h
      cases hc : construct model_size device compute_type st.construction_count with
      | error e =>
          rw [hc] at h
          have hp : ((Except.error e : Except String WhisperModelInst),
              ({ st with construction_count := st.construction_count + 1 } :
                ModelCacheState)) = (Except.ok m, st') := h
          exact absurd (congrArg Prod.fst hp) (by simp)
      | ok m1 =>
          rw [hc] at h
          have hp : ((Except.ok m1 : Except String WhisperModelInst),
              (⟨(cache_key model_size device compute_type, m1) :: st.cache,
                st.construction_count + 1⟩ : ModelCacheState)) = (Except.ok m, st') := h
          have h1 : m1 = m := Except.ok.inj (congrArg Prod.fst hp)
          have h2 : (⟨(cache_key model_size device compute_type, m1) :: st.cache,
              st.construction_count + 1⟩ : ModelCacheState) = st' :=
            congrArg Prod.snd hp
          subst h1
          rw [← h2]
          simp [List.lookup]

/-- C6: once a call to get_model has returned an instance (and hence stored
it on a miss), every later call with the same configuration returns that very
instance and leaves the state untouched: in particular the construction
counter does not move, so no second engine construction happens, whatever
constructor the later call would have used. -/
theorem get_model_idempotent
    (construct construct2 : String → String → String → Nat → Except String WhisperModelInst)
    (st : ModelCacheState) (model_size device compute_type : String)
    (m : WhisperModelInst) (st' : ModelCacheState)
    (h : get_model construct st model_size device compute_type = (Except.ok m, st')) :
    get_model construct2 st' model_size device compute_type = (Except.ok m, st') :=
  get_model_hit construct2 st' model_size device compute_type m
    (get_model_ok_lookup construct st model_size device compute_type m st' h)

/-- C6 witness: a concrete first call on the empty cache followed by a second
call with the same key returns the stored instance without reconstruction. -/
theorem get_model_idempotent_witness :
    get_model mk_whisper_model
      ⟨[(cache_key "medium" "cuda" "float16", ⟨"medium", "cuda", "float16", 0⟩)], 1⟩
      "medium" "cuda" "float16" =
    (Except.ok ⟨"medium", "cuda", "float16", 0⟩,
     ⟨[(cache_key "medium" "cuda" "float16", ⟨"medium", "cuda", "float16", 0⟩)], 1⟩) :=
  get_model_idempotent mk_whisper_model mk_whisper_model ⟨[], 0⟩
    "medium" "cuda" "float16" ⟨"medium", "cuda", "float16", 0⟩
    ⟨[(cache_key "medium" "cuda" "float16", ⟨"medium", "cuda", "float16", 0⟩)], 1⟩ rfl

/-- C7: when the key is absent and the constructor raises, get_model
propagates the error, the cache is left exactly as it was (the key is not
cached as failed), and a later call with the same key invokes its
constructor again, succeeding if that constructor now succeeds. -/
theorem get_model_construct_failure
    (construct construct2 : String → String → String → Nat → Except String WhisperModelInst)
    (st : ModelCacheState) (model_size device compute_type : String) (e : String)
    (hmiss : st.cache.lookup (cache_key model_size device compute_type) = none)
    (hfail : construct model_size device compute_type st.construction_count = Except.error e) :
    get_model construct st model_size device compute_type =
      (Except.error e, { st with construction_count := st.construction_count + 1 }) ∧
    (get_model construct st model_size device compute_type).2.cache = st.cache ∧
    (∀ m2, construct2 model_size device compute_type (st.construction_count + 1) =
        Except.ok m2 →
      (get_model construct2 (get_model construct st model_size device compute_type).2
          model_size device compute_type).1 = Except.ok m2) := by
  have hmain : get_model construct st model_size device compute_type =
      (Except.error e, { st with construction_count := st.construction_count + 1 }) := by
    unfold get_model
    rw [hmiss, hfail]
  refine ⟨hmain, by rw [hmain], ?_⟩
  intro m2 hok
  rw [hmain]
  have hmiss2 : (({ st with construction_count := st.construction_count + 1 } :
      ModelCacheState)).cache.lookup (cache_key model_size device compute_type) = none := hmiss
  have hok2 : construct2 model_size device compute_type
      ({ st with construction_count := st.construction_count + 1 } :
        ModelCacheState).construction_count = Except.ok m2 := hok
  rw [get_model_miss_ok construct2 _ model_size device compute_type m2 hmiss2 hok2]

/-- C7 witness: a concretely failing constructor on the empty cache leaves
the cache empty and a retry with a working constructor succeeds. -/
theorem get_model_construct_failure_witness :
    (get_model (fun _ _ _ _ => Except.error "CUDA device unavailable") ⟨[], 0⟩
        "medium" "cuda" "float16" =
      (Except.error "CUDA device unavailable", ⟨[], 1⟩)) ∧
    (get_model (fun _ _ _ _ => Except.error "CUDA device unavailable") ⟨[], 0⟩
        "medium" "cuda" "float16").2.cache = [] ∧
    (∀ m2, mk_whisper_model "medium" "cuda" "float16" 1 = Except.ok m2 →
      (get_model mk_whisper_model
          (get_model (fun _ _ _ _ => Except.error "CUDA device unavailable") ⟨[], 0⟩
            "medium" "cuda" "float16").2
          "medium" "cuda" "float16").1 = Except.ok m2) :=
  get_model_construct_failure (fun _ _ _ _ => Except.error "CUDA device unavailable")
    mk_whisper_model ⟨[], 0⟩ "medium" "cuda" "float16" "CUDA device unavailable" rfl rfl

/-- C10: the underscore-joined cache key is not injective on configuration
triples: two distinct triples collide, and consequently a call with the
second triple is served from the entry stored by the first, returning the
same instance without a new construction. -/
theorem cache_key_not_injective :
    cache_key "medium" "cuda" "int8_float16" = cache_key "medium" "cuda_int8" "float16" ∧
    (("medium", "cuda", "int8_float16") : String × String × String) ≠
      ("medium", "cuda_int8", "float16") ∧
    get_model mk_whisper_model
        (get_model mk_whisper_model ⟨[], 0⟩ "medium" "cuda" "int8_float16").2
        "medium" "cuda_int8" "float16" =
      ((get_model mk_whisper_model ⟨[], 0⟩ "medium" "cuda" "int8_float16").1,
       (get_model mk_whisper_model ⟨[], 0⟩ "medium" "cuda" "int8_float16").2) := by
  refine ⟨rfl, by decide, ?_⟩
  rfl

/-- The final path component, as os.path.basename produces for the
forward-slash paths the service handles. -/
def basename (p : String) : String :=
  (p.splitOn "/").getLastD p

/-- The extension of a path in the sense of os.path.splitext: the suffix
from the last dot of the basename, empty when the basename has no dot or
when every character before that dot is itself a dot (hidden files). -/
def splitext_ext (file_path : String) : String :=
  let chars := (basename file_path).toList
  match chars.reverse.findIdx? (fun c => c = '.') with
  | none => ""
  | some i =>
      let cut := chars.length - 1 - i
      if (chars.take cut).all (fun c => c = '.') then ""
      else String.mk (chars.drop cut)

/-- The audio extension set of get_file_type. -/
def audio_formats : List String :=
  [".mp3", ".wav", ".m4a", ".aac", ".ogg", ".flac", ".wma"]

/-- The video extension set of get_file_type. -/
def video_formats : List String :=
  [".mp4", ".avi", ".mov", ".mkv", ".wmv", ".flv", ".webm", ".m4v", ".3gp"]

/-- Embedding of get_file_type from run.py. -/
def get_file_type (file_path : String) : String :=
  let file_ext := (splitext_ext file_path).toLower
  if audio_formats.contains file_ext then "audio"
  else if video_formats.contains file_ext then "video"
  else "unknown"

/-- One event of the SSE stream, as the JSON payloads built in
transcribe_media_stream: the constructor is the type discriminator and the
fields are the variant-specific payload fields (the wall-clock timestamp
field, which every payload carries and no claim constrains, is omitted). -/
inductive TranscriptionEvent where
  | start (file_name : String) (file_type : String)
  | language_detected (language : String) (language_probability : Rat)
  | segment (segment_id : Nat) (start_time : Rat) (end_time : Rat) (text : String)
  | complete (total_segments : Nat) (elapsed_time : Rat) (file_type : String)
  | error (error_message : String)
deriving DecidableEq, Repr

/-- One segment as yielded by the engine iterator (segment.start,
segment.end, segment.text); stop stands for the attribute named end, which
is a reserved word here. -/
structure EngineSegment where
  start : Rat
  stop : Rat
  text : String
deriving DecidableEq, Repr

/-- The observable behaviour of the external calls inside the try block of
transcribe_media_stream: get_model may raise, model.transcribe may raise,
or transcription proceeds and the lazy segment iterator yields a list of
segments and then either is exhausted (iteration_error none) or raises
mid-iteration (iteration_error some). -/
inductive EngineRun where
  | get_model_raises (message : String)
  | transcribe_raises (message : String)
  | produces (language : String) (language_probability : Rat)
      (segments : List EngineSegment) (iteration_error : Option String)
deriving DecidableEq, Repr

/-- The segment events produced by the for-loop of transcribe_media_stream:
segment_count starts at the given value and is incremented before each
yield, so ids continue from segment_count + 1. -/
def emit_segments : List EngineSegment → Nat → List TranscriptionEvent
  | [], _ => []
  | s :: rest, segment_count =>
      TranscriptionEvent.segment (segment_count + 1) s.start s.stop s.text ::
        emit_segments rest (segment_count + 1)

/-- Embedding of the async generator transcribe_media_stream from run.py:
the result is the list of events it yields together with the message of an
uncaught exception, if one escapes the generator. When the path check fails
the FileNotFoundError is raised before the first yield, outside the try
block, so nothing is emitted; otherwise the start event is yielded and the
try block catches every exception, converting it into a single error event. -/
def transcribe_media_stream (path_exists : Bool) (media_path : String)
    (run : EngineRun) (elapsed_time : Rat) :
    List TranscriptionEvent × Option String :=
  if path_exists then
    let file_type := get_file_type media_path
    let start_event := TranscriptionEvent.start (basename media_path) file_type
    match run with
    | EngineRun.get_model_raises msg =>
        ([start_event, TranscriptionEvent.error msg], none)
    | EngineRun.transcribe_raises msg =>
        ([start_event, TranscriptionEvent.error msg], none)
    | EngineRun.produces lang prob segs iter_err =>
        let events := start_event ::
          TranscriptionEvent.language_detected lang prob :: emit_segments segs 0
        match iter_err with
        | some msg => (events ++ [TranscriptionEvent.error msg], none)
        | none =>
            (events ++
             [TranscriptionEvent.complete segs.length elapsed_time file_type], none)
  else
    ([], some ("媒体文件不存在: " ++ media_path))

/-- The events a session with an existing media path yields. -/
def session_events (media_path : String) (run : EngineRun) (elapsed_time : Rat) :
    List TranscriptionEvent :=
  (transcribe_media_stream true media_path run elapsed_time).1

/-- Discriminator for start events. -/
def is_start : TranscriptionEvent → Bool
  | TranscriptionEvent.start _ _ => true
  | _ => false

/-- Discriminator for language_detected events. -/
def is_language_detected : TranscriptionEvent → Bool
  | TranscriptionEvent.language_detected _ _ => true
  | _ => false

/-- Discriminator for segment events. -/
def is_segment : TranscriptionEvent → Bool
  | TranscriptionEvent.segment _ _ _ _ => true
  | _ => false

/-- Discriminator for error events. -/
def is_error : TranscriptionEvent → Bool
  | TranscriptionEvent.error _ => true
  | _ => false

/-- Discriminator for the two terminal events, complete and error. -/
def is_terminal : TranscriptionEvent → Bool
  | TranscriptionEvent.complete _ _ _ => true
  | TranscriptionEvent.error _ => true
  | _ => false

/-- The segment_id fields of the segment events of a stream, in order. -/
def segment_ids (events : List TranscriptionEvent) : List Nat :=
  events.filterMap fun e =>
    match e with
    | TranscriptionEvent.segment i _ _ _ => some i
    | _ => none

/-- The message of the exception that interrupts a run after the start
event, none when the run succeeds end to end. -/
def failure_message : EngineRun → Option String
  | EngineRun.get_model_raises msg => some msg
  | EngineRun.transcribe_raises msg => some msg
  | EngineRun.produces _ _ _ (some msg) => some msg
  | EngineRun.produces _ _ _ none => none

/-- Recognizer for a generator outcome whose emitted events are exactly one
error event and nothing else. -/
def sole_error_stream (result : List TranscriptionEvent × Option String) : Bool :=
  match result.1 with
  | [TranscriptionEvent.error _] => true
  | _ => false

/-- Every event the segment loop yields is a segment event. -/
theorem emit_segments_mem_is_segment (segs : List EngineSegment) :
    ∀ (n : Nat), ∀ e ∈ emit_segments segs n, is_segment e = true := by
  induction segs with
  | nil =>
      intro n e he
      simp [emit_segments] at he
  | cons s rest ih =>
      intro n e he
      simp only [emit_segments, List.mem_cons] at he
      cases he with
      | inl h => subst h; rfl
      | inr h => exact ih (n + 1) e h

/-- A predicate false on segment events counts zero over the loop output. -/
theorem emit_segments_countP_zero (p : TranscriptionEvent → Bool)
    (hp : ∀ i a b t, p (TranscriptionEvent.segment i a b t) = false)
    (segs : List EngineSegment) (n : Nat) :
    (emit_segments segs n).countP p = 0 := by
  induction segs generalizing n with
  | nil => rfl
  | cons s rest ih => simp [emit_segments, List.countP_cons, hp, ih]

/-- The loop output holds no start event. -/
theorem emit_segments_countP_start (segs : List EngineSegment) (n : Nat) :
    (emit_segments segs n).countP is_start = 0 :=
  emit_segments_countP_zero is_start (fun _ _ _ _ => rfl) segs n

/-- The loop output holds no language_detected event. -/
theorem emit_segments_countP_language (segs : List EngineSegment) (n : Nat) :
    (emit_segments segs n).countP is_language_detected = 0 :=
  emit_segments_countP_zero is_language_detected (fun _ _ _ _ => rfl) segs n

/-- The loop output holds no terminal event. -/
theorem emit_segments_countP_terminal (segs : List EngineSegment) (n : Nat) :
    (emit_segments segs n).countP is_terminal = 0 :=
  emit_segments_countP_zero is_terminal (fun _ _ _ _ => rfl) segs n

/-- The loop output holds no error event. -/
theorem emit_segments_countP_error (segs : List EngineSegment) (n : Nat) :
    (emit_segments segs n).countP is_error = 0 :=
  emit_segments_countP_zero is_error (fun _ _ _ _ => rfl) segs n

/-- The loop output consists of exactly one segment event per engine segment. -/
theorem emit_segments_countP_segment (segs : List EngineSegment) (n : Nat) :
    (emit_segments segs n).countP is_segment = segs.length := by
  induction segs generalizing n with
  | nil => rfl
  | cons s rest ih => simp [emit_segments, List.countP_cons, is_segment, ih]

/-- The segment ids the loop assigns are consecutive from segment_count + 1. -/
theorem segment_ids_emit_segments (segs : List EngineSegment) (n : Nat) :
    segment_ids (emit_segments segs n) = List.range' (n + 1) segs.length := by
  induction segs generalizing n with
  | nil => rfl
  | cons s rest ih =>
      simp only [emit_segments, segment_ids, List.filterMap_cons, List.length_cons,
        List.range'_succ]
      exact congrArg (List.cons (n + 1)) (ih (n + 1))

/-- No complete event appears in the loop output. -/
theorem complete_not_mem_emit_segments (segs : List EngineSegment) (n k : Nat)
    (el : Rat) (ft : String) :
    TranscriptionEvent.complete k el ft ∉ emit_segments segs n := by
  intro hmem
  have := emit_segments_mem_is_segment segs n _ hmem
  simp [is_segment] at this

/-- A session on an existing path never lets an exception escape: the try
block converts every failure into an error event. -/
theorem transcribe_no_uncaught (media_path : String) (run : EngineRun) (t : Rat) :
    (transcribe_media_stream true media_path run t).2 = none := by
  cases run with
  | get_model_raises msg => rfl
  | transcribe_raises msg => rfl
  | produces lang prob segs iter_err => cases iter_err <;> rfl

/-- Events of a session whose get_model call raises. -/
theorem session_events_get_model_raises (media_path msg : String) (t : Rat) :
    session_events media_path (EngineRun.get_model_raises msg) t =
      [TranscriptionEvent.start (basename media_path) (get_file_type media_path),
       TranscriptionEvent.error msg] := rfl

/-- Events of a session whose model.transcribe call raises. -/
theorem session_events_transcribe_raises (media_path msg : String) (t : Rat) :
    session_events media_path (EngineRun.transcribe_raises msg) t =
      [TranscriptionEvent.start (basename media_path) (get_file_type media_path),
       TranscriptionEvent.error msg] := rfl

/-- Events of a session whose segment iteration raises after some segments. -/
theorem session_events_produces_fail (media_path lang : String) (prob : Rat)
    (segs : List EngineSegment) (msg : String) (t : Rat) :
    session_events media_path (EngineRun.produces lang prob segs (some msg)) t =
      TranscriptionEvent.start (basename media_path) (get_file_type media_path) ::
      TranscriptionEvent.language_detected lang prob ::
      (emit_segments segs 0 ++ [TranscriptionEvent.error msg]) := rfl

/-- Events of a session that runs to completion. -/
theorem session_events_produces_ok (media_path lang : String) (prob : Rat)
    (segs : List EngineSegment) (t : Rat) :
    session_events media_path (EngineRun.produces lang prob segs none) t =
      TranscriptionEvent.start (basename media_path) (get_file_type media_path) ::
      TranscriptionEvent.language_detected lang prob ::
      (emit_segments segs 0 ++
       [TranscriptionEvent.complete segs.length t (get_file_type media_path)]) := rfl

/-- The last element of a stream made of a leading event, a middle block,
and a final terminal element. -/
theorem getLast_cons_append (a c : TranscriptionEvent) (l : List TranscriptionEvent) :
    (a :: (l ++ [c])).getLast? = some c := by
  rw [show a :: (l ++ [c]) = (a :: l) ++ [c] by simp]
  exact List.getLast?_concat _

/-- The last element of a stream of the shape the session produces on the
happy path: two leading events, the segment block, then the terminal. -/
theorem getLast_cons_cons_append (a b c : TranscriptionEvent)
    (l : List TranscriptionEvent) :
    (a :: b :: (l ++ [c])).getLast? = some c := by
  rw [show a :: b :: (l ++ [c]) = (a :: (b :: l)) ++ [c] by simp]
  exact List.getLast?_concat _

/-- C1: on an existing media path the emitted sequence holds exactly one
start event, placed first; at most one language_detected event, none of
which occurs at or after the first segment event; exactly one terminal
event (complete or error), placed last so nothing follows it; and no
exception escapes the generator. -/
theorem transcribe_stream_shape (media_path : String) (run : EngineRun) (t : Rat) :
    (session_events media_path run t).countP is_start = 1 ∧
    (session_events media_path run t).head?.map is_start = some true ∧
    (session_events media_path run t).countP is_language_detected ≤ 1 ∧
    ((session_events media_path run t).dropWhile (fun e => ! is_segment e)).countP
        is_language_detected = 0 ∧
    (session_events media_path run t).countP is_terminal = 1 ∧
    (session_events media_path run t).getLast?.map is_terminal = some true ∧
    (transcribe_media_stream true media_path run t).2 = none := by
  cases run with
  | get_model_raises msg =>
      rw [session_events_get_model_raises]
      refine ⟨rfl, rfl, by simp [List.countP_cons, is_language_detected], rfl, rfl, rfl,
        transcribe_no_uncaught media_path _ t⟩
  | transcribe_raises msg =>
      rw [session_events_transcribe_raises]
      refine ⟨rfl, rfl, by simp [List.countP_cons, is_language_detected], rfl, rfl, rfl,
        transcribe_no_uncaught media_path _ t⟩
  | produces lang prob segs iter_err =>
      cases iter_err with
      | some msg =>
          rw [session_events_produces_fail]
          cases segs with
          | nil =>
              simp [emit_segments, List.dropWhile, List.countP_cons, is_start,
                is_language_detected, is_segment, is_terminal,
                transcribe_no_uncaught]
          | cons s rest =>
              simp [emit_segments, List.dropWhile, List.countP_cons, List.countP_append,
                is_start, is_language_detected, is_segment, is_terminal,
                emit_segments_countP_start, emit_segments_countP_language,
                emit_segments_countP_terminal, getLast_cons_append,
                getLast_cons_cons_append, transcribe_no_uncaught]
      | none =>
          rw [session_events_produces_ok]
          cases segs with
          | nil =>
              simp [emit_segments, List.dropWhile, List.countP_cons, is_start,
                is_language_detected, is_segment, is_terminal,
                transcribe_no_uncaught]
          | cons s rest =>
              simp [emit_segments, List.dropWhile, List.countP_cons, List.countP_append,
                is_start, is_language_detected, is_segment, is_terminal,
                emit_segments_countP_start, emit_segments_countP_language,
                emit_segments_countP_terminal, getLast_cons_append,
                getLast_cons_cons_append, transcribe_no_uncaught]

/-- A completed session counts one segment event per engine segment. -/
theorem countP_segment_session_ok (media_path lang : String) (prob : Rat)
    (segs : List EngineSegment) (t : Rat) :
    (session_events media_path (EngineRun.produces lang prob segs none) t).countP
        is_segment = segs.length := by
  rw [session_events_produces_ok]
  simp [List.countP_cons, List.countP_append, is_segment, emit_segments_countP_segment]

/-- A completed session carries the segment ids 1 through the segment count. -/
theorem segment_ids_session_ok (media_path lang : String) (prob : Rat)
    (segs : List EngineSegment) (t : Rat) :
    segment_ids (session_events media_path (EngineRun.produces lang prob segs none) t) =
      List.range' 1 segs.length := by
  rw [session_events_produces_ok]
  show segment_ids (emit_segments segs 0 ++
    [TranscriptionEvent.complete segs.length t (get_file_type media_path)]) =
    List.range' 1 segs.length
  rw [show segment_ids (emit_segments segs 0 ++
      [TranscriptionEvent.complete segs.length t (get_file_type media_path)]) =
      segment_ids (emit_segments segs 0) ++
      segment_ids [TranscriptionEvent.complete segs.length t (get_file_type media_path)]
    from by simp [segment_ids]]
  rw [segment_ids_emit_segments segs 0]
  simp [segment_ids]

/-- C2: whenever a complete event appears in a session's stream, its
total_segments field equals the number of segment events of that stream, and
the segment ids of the stream are exactly 1, 2, ..., total_segments in
emission order. -/
theorem complete_total_segments (media_path : String) (run : EngineRun) (t : Rat)
    (n : Nat) (el : Rat) (ft : String)
    (h : TranscriptionEvent.complete n el ft ∈ session_events media_path run t) :
    n = (session_events media_path run t).countP is_segment ∧
    segment_ids (session_events media_path run t) = List.range' 1 n := by
  cases run with
  | get_model_raises msg =>
      rw [session_events_get_model_raises] at h
      simp at h
  | transcribe_raises msg =>
      rw [session_events_transcribe_raises] at h
      simp at h
  | produces lang prob segs iter_err =>
      cases iter_err with
      | some msg =>
          rw [session_events_produces_fail] at h
          simp [complete_not_mem_emit_segments] at h
      | none =>
          rw [session_events_produces_ok] at h
          simp [complete_not_mem_emit_segments] at h
          obtain ⟨hn, -, -⟩ := h
          subst hn
          exact ⟨(countP_segment_session_ok media_path lang prob segs t).symm,
            segment_ids_session_ok media_path lang prob segs t⟩

/-- C2 witness: a two-segment session reaching complete has total_segments 2
and segment ids 1, 2. -/
theorem complete_total_segments_witness :
    TranscriptionEvent.complete 2 7 (get_file_type "a.mp3") ∈
      session_events "a.mp3"
        (EngineRun.produces "zh" 1 [⟨0, 2, "hi"⟩, ⟨2, 3, "there"⟩] none) 7 ∧
    (2 = (session_events "a.mp3"
          (EngineRun.produces "zh" 1 [⟨0, 2, "hi"⟩, ⟨2, 3, "there"⟩] none) 7).countP
        is_segment ∧
     segment_ids (session_events "a.mp3"
          (EngineRun.produces "zh" 1 [⟨0, 2, "hi"⟩, ⟨2, 3, "there"⟩] none) 7) =
       List.range' 1 2) :=
  ⟨by rw [session_events_produces_ok]; simp [emit_segments],
   complete_total_segments "a.mp3"
     (EngineRun.produces "zh" 1 [⟨0, 2, "hi"⟩, ⟨2, 3, "there"⟩] none) 7 2 7
     (get_file_type "a.mp3")
     (by rw [session_events_produces_ok]; simp [emit_segments])⟩

/-- C5: when an exception interrupts the session after the start event (in
get_model, in model.transcribe, or while iterating segments), the stream
holds exactly one error event, it carries the exception's message, it is the
last event, and the stream still opened with the start event. -/
theorem error_is_sole_terminal (media_path : String) (run : EngineRun) (t : Rat)
    (msg : String) (h : failure_message run = some msg) :
    (session_events media_path run t).countP is_error = 1 ∧
    (session_events media_path run t).getLast? =
      some (TranscriptionEvent.error msg) ∧
    (session_events media_path run t).head?.map is_start = some true := by
  cases run with
  | get_model_raises m =>
      have hm : m = msg := Option.some.inj h
      subst hm
      rw [session_events_get_model_raises]
      exact ⟨rfl, rfl, rfl⟩
  | transcribe_raises m =>
      have hm : m = msg := Option.some.inj h
      subst hm
      rw [session_events_transcribe_raises]
      exact ⟨rfl, rfl, rfl⟩
  | produces lang prob segs iter_err =>
      cases iter_err with
      | none => simp [failure_message] at h
      | some m =>
          have hm : m = msg := Option.some.inj h
          subst hm
          rw [session_events_produces_fail]
          refine ⟨?_, getLast_cons_cons_append _ _ _ _, rfl⟩
          simp [List.countP_cons, List.countP_append, is_error,
            emit_segments_countP_error]

/-- C5 witness: a concrete model-fetch failure produces start then a single
error carrying the message, and nothing after it. -/
theorem error_is_sole_terminal_witness :
    failure_message (EngineRun.get_model_raises "model load failed") =
      some "model load failed" ∧
    ((session_events "a.mp3" (EngineRun.get_model_raises "model load failed") 0).countP
        is_error = 1 ∧
     (session_events "a.mp3" (EngineRun.get_model_raises "model load failed") 0).getLast? =
       some (TranscriptionEvent.error "model load failed") ∧
     (session_events "a.mp3"
          (EngineRun.get_model_raises "model load failed") 0).head?.map is_start =
       some true) :=
  ⟨rfl, error_is_sole_terminal "a.mp3" (EngineRun.get_model_raises "model load failed") 0
    "model load failed" rfl⟩

/-- A missing media path makes the generator raise before the first yield:
no event at all is emitted and the FileNotFoundError message escapes. -/
theorem transcribe_not_found (media_path : String) (run : EngineRun) (t : Rat) :
    transcribe_media_stream false media_path run t =
      ([], some ("媒体文件不存在: " ++ media_path)) := rfl

/-- C3 counterexample: for a concrete request whose media path does not
exist, the emitted event list is not a single error event (it is empty and
the generator raises instead), refuting the claim that the consumer observes
exactly one error event. -/
theorem missing_media_no_sole_error_event :
    sole_error_stream (transcribe_media_stream false "missing.mp3"
      (EngineRun.produces "zh" 1 [] none) 0) = false := rfl

/-- C3 amended: when the media path does not exist, transcribe_media_stream
emits no event whatsoever (no start, but also no error event): it raises
FileNotFoundError with the not-found message before the first yield. -/
theorem missing_media_raises (media_path : String) (run : EngineRun) (t : Rat) :
    transcribe_media_stream false media_path run t =
      ([], some ("媒体文件不存在: " ++ media_path)) :=
  transcribe_not_found media_path run t

/-- Staging the uploaded bytes creates the temporary file. -/
def stage_upload (fs : List String) (temp_path : String) : List String :=
  temp_path :: fs

/-- Embedding of os.unlink: the path stops existing. -/
def os_unlink (fs : List String) (p : String) : List String :=
  fs.erase p

/-- Embedding of os.path.exists over the modelled filesystem. -/
def os_path_exists (fs : List String) (p : String) : Bool :=
  fs.contains p

/-- Embedding of transcribe_by_upload from run.py, with the filesystem as
the list of existing paths. The handler stages the upload to a fresh
temporary file, builds the StreamingResponse around the generator without
iterating it, and then its finally block unlinks the temporary file as the
handler returns; only afterwards does the server drive the generator, whose
os.path.exists check therefore runs against the post-unlink filesystem. -/
def transcribe_by_upload (fs : List String) (temp_path : String) (run : EngineRun)
    (t : Rat) : List TranscriptionEvent × Option String :=
  let fs_staged := stage_upload fs temp_path
  let fs_after_handler := os_unlink fs_staged temp_path
  transcribe_media_stream (os_path_exists fs_after_handler temp_path) temp_path run t

/-- C4: for any fresh temporary path, the upload endpoint's stream sees the
temporary file already deleted: the session emits no events and raises the
file-not-found error, so the staged file never survives into the response. -/
theorem upload_temp_deleted_before_streaming (fs : List String) (temp_path : String)
    (run : EngineRun) (t : Rat) (h : temp_path ∉ fs) :
    transcribe_by_upload fs temp_path run t =
      ([], some ("媒体文件不存在: " ++ temp_path)) := by
  simp only [transcribe_by_upload, stage_upload, os_unlink, os_path_exists]
  rw [List.erase_cons_head]
  have hc : fs.contains temp_path = false := by
    simpa using h
  rw [hc]
  exact transcribe_not_found temp_path run t

/-- C4 witness: a concrete upload of one audio segment still yields the
empty stream with the uncaught not-found error. -/
theorem upload_temp_deleted_before_streaming_witness :
    ("/tmp/tmpupload.mp3" ∉ ([] : List String)) ∧
    transcribe_by_upload [] "/tmp/tmpupload.mp3"
        (EngineRun.produces "zh" 1 [⟨0, 2, "hi"⟩] none) 0 =
      ([], some ("媒体文件不存在: " ++ "/tmp/tmpupload.mp3")) :=
  ⟨by decide,
   upload_temp_deleted_before_streaming [] "/tmp/tmpupload.mp3"
     (EngineRun.produces "zh" 1 [⟨0, 2, "hi"⟩] none) 0 (by decide)⟩

/-- One entry of the segments list the client accumulates in _handle_event:
the event's id, bounds and text, in arrival order. -/
structure SavedSegment where
  id : Nat
  start : Rat
  stop : Rat
  text : String
deriving DecidableEq, Repr

/-- The segments list built by repeated _handle_event calls over the decoded
events: each segment event appends one entry, other events touch nothing. -/
def collect_segments : List TranscriptionEvent → List SavedSegment
  | [] => []
  | TranscriptionEvent.segment i a b tx :: rest =>
      ⟨i, a, b, tx⟩ :: collect_segments rest
  | _ :: rest => collect_segments rest

/-- The total_text accumulator of ASRClient.transcribe_file: each segment
event appends its text followed by a newline. -/
def accumulate_text : List TranscriptionEvent → String
  | [] => ""
  | TranscriptionEvent.segment _ _ _ tx :: rest =>
      tx ++ "\n" ++ accumulate_text rest
  | _ :: rest => accumulate_text rest

/-- Python str.strip with no argument: leading and trailing whitespace
removed, embedded structurally over the character list. -/
def strip (s : String) : String :=
  String.mk (((s.toList.dropWhile Char.isWhitespace).reverse.dropWhile
    Char.isWhitespace).reverse)

/-- Python s.rsplit(dot, 1)[0]: everything before the last dot, or the whole
string when it has none. -/
def rsplit_stem (s : String) : String :=
  let chars := s.toList
  match chars.reverse.findIdx? (fun c => c = '.') with
  | none => s
  | some i => String.mk (chars.take (chars.length - 1 - i))

/-- The JSON document _save_to_file writes beside the text file. -/
structure DetailedOutput where
  total_segments : Nat
  segments : List SavedSegment
  full_text : String
deriving DecidableEq, Repr

/-- The two files _save_to_file writes: the plain text at the given path and
the detailed JSON document at the derived path. -/
structure SaveResult where
  text_path : String
  text_content : String
  json_path : String
  json_content : DetailedOutput
deriving DecidableEq, Repr

/-- Embedding of ASRClient._save_to_file from asr.py: writes the text to
file_path and the detailed document (total_segments = len(segments), the
segments list, full_text = text) next to it under the stem plus
_detailed.json. -/
def save_to_file (file_path : String) (text : String)
    (segments : List SavedSegment) : SaveResult :=
  ⟨file_path, text, rsplit_stem file_path ++ "_detailed.json",
   ⟨segments.length, segments, text⟩⟩

/-- Embedding of the saving behaviour of ASRClient.transcribe_file from
asr.py over the already-decoded event stream: the loop accumulates the
segments list and total_text, and files are written only when a destination
was given and both the destination and the stripped text are truthy. -/
def transcribe_file (events : List TranscriptionEvent)
    (save_dest : Option String) : Option SaveResult :=
  let segments := collect_segments events
  let total_text := accumulate_text events
  match save_dest with
  | none => none
  | some file_path =>
      if file_path.isEmpty then none
      else if (strip total_text).isEmpty then none
      else some (save_to_file file_path (strip total_text) segments)

/-- The client's segment accumulator distributes over stream concatenation. -/
theorem collect_segments_append (l1 l2 : List TranscriptionEvent) :
    collect_segments (l1 ++ l2) = collect_segments l1 ++ collect_segments l2 := by
  induction l1 with
  | nil => rfl
  | cons e rest ih => cases e <;> simp [collect_segments, ih]

/-- The client's text accumulator distributes over stream concatenation. -/
theorem accumulate_text_append (l1 l2 : List TranscriptionEvent) :
    accumulate_text (l1 ++ l2) = accumulate_text l1 ++ accumulate_text l2 := by
  induction l1 with
  | nil => simp [accumulate_text, String.empty_append]
  | cons e rest ih =>
      cases e <;> simp [accumulate_text, ih, String.append_assoc]

/-- A block without segment events contributes no saved segment. -/
theorem collect_segments_eq_nil (l : List TranscriptionEvent)
    (h : ∀ e ∈ l, is_segment e = false) : collect_segments l = [] := by
  induction l with
  | nil => rfl
  | cons e rest ih =>
      have he := h e (List.mem_cons_self e rest)
      have hr : ∀ x ∈ rest, is_segment x = false :=
        fun x hx => h x (List.mem_cons_of_mem e hx)
      cases e <;> simp [collect_segments, is_segment] at he ⊢ <;> exact ih hr

/-- A block without segment events contributes no text. -/
theorem accumulate_text_eq_empty (l : List TranscriptionEvent)
    (h : ∀ e ∈ l, is_segment e = false) : accumulate_text l = "" := by
  induction l with
  | nil => rfl
  | cons e rest ih =>
      have he := h e (List.mem_cons_self e rest)
      have hr : ∀ x ∈ rest, is_segment x = false :=
        fun x hx => h x (List.mem_cons_of_mem e hx)
      cases e <;> simp [accumulate_text, is_segment] at he ⊢ <;> exact ih hr

/-- A non-segment event leaves the segment accumulator unchanged. -/
theorem collect_segments_cons_not_segment (e : TranscriptionEvent)
    (h : is_segment e = false) (l : List TranscriptionEvent) :
    collect_segments (e :: l) = collect_segments l := by
  cases e <;> simp [collect_segments, is_segment] at h ⊢

/-- A non-segment event leaves the text accumulator unchanged. -/
theorem accumulate_text_cons_not_segment (e : TranscriptionEvent)
    (h : is_segment e = false) (l : List TranscriptionEvent) :
    accumulate_text (e :: l) = accumulate_text l := by
  cases e <;> simp [accumulate_text, is_segment] at h ⊢

/-- A terminal event is not a segment event. -/
theorem is_terminal_not_segment (e : TranscriptionEvent)
    (h : is_terminal e = true) : is_segment e = false := by
  cases e <;> simp [is_segment, is_terminal] at h ⊢

/-- C9: a client run saving to out.txt, whose stream delivers exactly two
segment events with texts hi and there (in that order) and otherwise only
non-segment events ending in a terminal, writes out.txt with content
hi-newline-there and out_detailed.json with total_segments 2, the two
accumulated segments, and the same full text. -/
theorem save_two_segments (pre : List TranscriptionEvent) (i1 i2 : Nat)
    (a1 b1 a2 b2 : Rat) (term : TranscriptionEvent)
    (hpre : ∀ e ∈ pre, is_segment e = false) (hterm : is_terminal term = true) :
    transcribe_file
        (pre ++ [TranscriptionEvent.segment i1 a1 b1 "hi",
                 TranscriptionEvent.segment i2 a2 b2 "there", term])
        (some "out.txt") =
      some ⟨"out.txt", "hi\nthere", "out_detailed.json",
            ⟨2, [⟨i1, a1, b1, "hi"⟩, ⟨i2, a2, b2, "there"⟩], "hi\nthere"⟩⟩ := by
  have hterm_seg : is_segment term = false := is_terminal_not_segment term hterm
  have hc : collect_segments
      (pre ++ [TranscriptionEvent.segment i1 a1 b1 "hi",
               TranscriptionEvent.segment i2 a2 b2 "there", term]) =
      [⟨i1, a1, b1, "hi"⟩, ⟨i2, a2, b2, "there"⟩] := by
    rw [collect_segments_append, collect_segments_eq_nil pre hpre]
    simp [collect_segments, collect_segments_cons_not_segment term hterm_seg]
  have ha : accumulate_text
      (pre ++ [TranscriptionEvent.segment i1 a1 b1 "hi",
               TranscriptionEvent.segment i2 a2 b2 "there", term]) =
      "hi\nthere\n" := by
    rw [accumulate_text_append, accumulate_text_eq_empty pre hpre,
      String.empty_append]
    show "hi" ++ "\n" ++ ("there" ++ "\n" ++ accumulate_text [term]) = "hi\nthere\n"
    rw [accumulate_text_cons_not_segment term hterm_seg]
    rfl
  simp only [transcribe_file, hc, ha]
  rfl

/-- C9 witness: a concrete stream (start, language, the two segments, then
complete) saved to out.txt produces exactly the claimed two files. -/
theorem save_two_segments_witness :
    (∀ e ∈ ([TranscriptionEvent.start "a.mp3" "audio",
             TranscriptionEvent.language_detected "zh" 1] :
              List TranscriptionEvent),
       is_segment e = false) ∧
    is_terminal (TranscriptionEvent.complete 2 3 "audio") = true ∧
    transcribe_file
        ([TranscriptionEvent.start "a.mp3" "audio",
          TranscriptionEvent.language_detected "zh" 1] ++
         [TranscriptionEvent.segment 1 0 1 "hi",
          TranscriptionEvent.segment 2 1 2 "there",
          TranscriptionEvent.complete 2 3 "audio"])
        (some "out.txt") =
      some ⟨"out.txt", "hi\nthere", "out_detailed.json",
            ⟨2, [⟨1, 0, 1, "hi"⟩, ⟨2, 1, 2, "there"⟩], "hi\nthere"⟩⟩ :=
  ⟨by decide, rfl,
   save_two_segments
     [TranscriptionEvent.start "a.mp3" "audio",
      TranscriptionEvent.language_detected "zh" 1] 1 2 0 1 1 2
     (TranscriptionEvent.complete 2 3 "audio") (by decide) rfl⟩
